import Mathlib

/-!
Shallow embedding of `DatasourcesService.js` (kylo, feed-mgr services): a
client-side access layer for JDBC/user data-source records.  Pure helpers are
embedded as Lean functions; each `$http`-based operation is embedded as the
single request it issues together with the success continuation installed by
`.then` (the identity when no `.then` is attached).
-/

set_option autoImplicit false

namespace DatasourcesService

/-- A data-source record, following the `JdbcDatasource` typedef of the source:
`id` is optional (absent for a freshly constructed, unsaved instance); the
structural discriminator is serialized under the reserved key `@type`. -/
structure JdbcDatasource where
  id : Option String
  «@type» : String
  name : String
  description : String
  sourceForFeeds : List String
  type : String
  databaseConnectionUrl : String
  databaseDriverClassName : String
  databaseDriverLocation : String
  databaseUser : String
  password : String
  deriving DecidableEq

/-- Type name for JDBC data sources (`JDBC_TYPE` in the source). -/
def JDBC_TYPE : String := "JdbcDatasource"

/-- Type name for user data sources (`USER_TYPE` in the source). -/
def USER_TYPE : String := "UserDatasource"

/-- A JavaScript argument that is either a single value or an array, the two
cases distinguished in the source by `angular.isArray`. -/
inductive JsArg (α : Type) where
  | single : α → JsArg α
  | array : List α → JsArg α

/-- `angular.isArray(x) ? x : [x]`: normalize a single-or-array argument to an
array. -/
def JsArg.toArray {α : Type} : JsArg α → List α
  | .single a => [a]
  | .array l => l

/-- JavaScript `Array.prototype.indexOf` over a list of strings, probed with a
possibly-undefined (`none`) value; comparison is strict equality.  Returns the
index of the first occurrence, or `-1` when the value does not occur. -/
def jsIndexOf (l : List String) (v : Option String) : Int :=
  match l with
  | [] => -1
  | x :: xs =>
    if some x = v then 0
    else
      let r := jsIndexOf xs v
      if r = -1 then -1 else r + 1

/-- `filterArrayByIds(ids, array)`: normalize `ids` to a list, then keep the
data sources whose `id` occurs in it (`idList.indexOf(datasource.id) > -1`). -/
def filterArrayByIds (ids : JsArg String) (array : List JdbcDatasource) :
    List JdbcDatasource :=
  let idList := ids.toArray
  array.filter (fun datasource => decide (jsIndexOf idList datasource.id > -1))

/-- `getIds(datasources)`: normalize to an array, then map each data source to
its `id` field (possibly `undefined`, i.e. `none`). -/
def getIds (datasources : JsArg JdbcDatasource) : List (Option String) :=
  let array := datasources.toArray
  array.map (fun datasource => datasource.id)

/-- `newJdbcDatasource()`: a fresh JDBC data source with discriminator
`JDBC_TYPE`, no `id`, empty `sourceForFeeds`, and every string field `""`. -/
def newJdbcDatasource : JdbcDatasource :=
  { id := none
    «@type» := JDBC_TYPE
    name := ""
    description := ""
    sourceForFeeds := []
    type := ""
    databaseConnectionUrl := ""
    databaseDriverClassName := ""
    databaseDriverLocation := ""
    databaseUser := ""
    password := "" }

/-- Characters left unescaped by JavaScript `encodeURIComponent`: ASCII
letters, ASCII digits, and the marks minus, underscore, dot, bang, tilde,
star, apostrophe (code 39), left paren, right paren. -/
def isUriUnescaped (c : Char) : Bool :=
  c.isAlpha || c.isDigit ||
    c = '-' || c = '_' || c = '.' || c = '!' || c = '~' || c = '*' ||
    c.toNat = 39 || c = '(' || c = ')'

/-- Uppercase hexadecimal digit character for a value below 16. -/
def hexDigit (n : Nat) : Char :=
  if n < 10 then Char.ofNat (48 + n) else Char.ofNat (55 + n)

/-- Percent-encoding of one byte, uppercase hexadecimal, as produced by
`encodeURIComponent`. -/
def percentEncodeByte (b : Nat) : List Char :=
  ['%', hexDigit (b / 16), hexDigit (b % 16)]

/-- The UTF-8 byte sequence of a Unicode scalar value. -/
def utf8Bytes (c : Char) : List Nat :=
  let n := c.toNat
  if n < 128 then [n]
  else if n < 2048 then [192 + n / 64, 128 + n % 64]
  else if n < 65536 then [224 + n / 4096, 128 + n / 64 % 64, 128 + n % 64]
  else [240 + n / 262144, 128 + n / 4096 % 64, 128 + n / 64 % 64, 128 + n % 64]

/-- JavaScript `encodeURIComponent`: unescaped characters pass through, every
other character is replaced by the percent-encoding of its UTF-8 bytes. -/
def encodeURIComponent (s : String) : String :=
  String.mk (s.data.flatMap (fun c =>
    if isUriUnescaped c then [c] else (utf8Bytes c).flatMap percentEncodeByte))

/-- An HTTP request as issued through the `$http` transport: method, url,
query parameters (the `params` config object) and optional JSON body. -/
structure HttpRequest where
  method : String
  url : String
  params : List (String × String)
  body : Option JdbcDatasource
  deriving DecidableEq

/-- An `$http` response envelope; the payload is carried under its `data`
field.  `δ` is the payload type (JavaScript is untyped, so it varies by
endpoint). -/
structure HttpResponse (δ : Type) where
  status : Nat
  data : δ
  deriving DecidableEq

/-- One `$http` call: the single request the operation issues, together with
the success continuation installed by `.then` (the identity function when no
`.then` is attached, as in `deleteById`). -/
structure HttpCall (δ β : Type) where
  request : HttpRequest
  onSuccess : HttpResponse δ → β

/-- Run an `$http` call against a transport.  A fulfilled transport result
flows through the success continuation; a rejection passes through a `.then`
that has no rejection handler untouched. -/
def HttpCall.run {δ β ε : Type} (c : HttpCall δ β)
    (transport : HttpRequest → Except ε (HttpResponse δ)) : Except ε β :=
  (transport c.request).map c.onSuccess

/-- `deleteById(id)`: one DELETE request at
`RestUrlService.GET_DATASOURCES_URL + "/" + encodeURIComponent(id)`; the
`$http` promise is returned directly, with no `.then` attached. -/
def deleteById {δ : Type} (base id : String) : HttpCall δ (HttpResponse δ) :=
  { request :=
      { method := "DELETE"
        url := base ++ "/" ++ encodeURIComponent id
        params := []
        body := none }
    onSuccess := fun response => response }

/-- `findAll()`: one GET request at the base url with `params: {type: USER_TYPE}`,
then unwrap `response.data`. -/
def findAll {δ : Type} (base : String) : HttpCall δ δ :=
  { request :=
      { method := "GET"
        url := base
        params := [("type", USER_TYPE)]
        body := none }
    onSuccess := fun response => response.data }

/-- `findById(id)`: one GET request at
`RestUrlService.GET_DATASOURCES_URL + "/" + id` (no escaping), then unwrap
`response.data`. -/
def findById {δ : Type} (base id : String) : HttpCall δ δ :=
  { request :=
      { method := "GET"
        url := base ++ "/" ++ id
        params := []
        body := none }
    onSuccess := fun response => response.data }

/-- `save(datasource)`: one POST request at the base url whose body is the
data source itself, then unwrap `response.data`. -/
def save {δ : Type} (base : String) (datasource : JdbcDatasource) :
    HttpCall δ δ :=
  { request :=
      { method := "POST"
        url := base
        params := []
        body := some datasource }
    onSuccess := fun response => response.data }

/-- A concrete transport for exercising `findAll`: always fulfills with a
one-element list payload. -/
def findAllTransport :
    HttpRequest → Except Unit (HttpResponse (List JdbcDatasource)) :=
  fun _ => .ok { status := 200, data := [newJdbcDatasource] }

/-- A concrete transport for exercising `findById`: always fulfills with a
single-entity payload. -/
def findByIdTransport : HttpRequest → Except Unit (HttpResponse JdbcDatasource) :=
  fun _ => .ok { status := 200, data := newJdbcDatasource }

/-- A concrete transport for exercising `save`: always fulfills with a
registry-canonicalized entity (an id has been assigned). -/
def saveTransport : HttpRequest → Except Unit (HttpResponse JdbcDatasource) :=
  fun _ => .ok { status := 200, data := { newJdbcDatasource with id := some "1" } }

/-- A concrete transport whose delete response carries a non-empty body. -/
def deleteTransportA : HttpRequest → Except Unit (HttpResponse String) :=
  fun _ => .ok { status := 200, data := "server payload" }

/-- A concrete transport whose delete response carries an empty body. -/
def deleteTransportB : HttpRequest → Except Unit (HttpResponse String) :=
  fun _ => .ok { status := 200, data := "" }

theorem jsIndexOf_eq_neg_one_or_nonneg (l : List String) (v : Option String) :
    jsIndexOf l v = -1 ∨ 0 ≤ jsIndexOf l v := by
  induction l with
  | nil => exact Or.inl rfl
  | cons x xs ih =>
    simp only [jsIndexOf]
    split
    · right; omega
    · split
      · exact Or.inl rfl
      · right
        rcases ih with h1 | h1
        · exact absurd h1 (by assumption)
        · omega

theorem jsIndexOf_pos_iff (l : List String) (v : Option String) :
    jsIndexOf l v > -1 ↔ ∃ s ∈ l, v = some s := by
  induction l with
  | nil =>
    constructor
    · intro h
      have h2 : (-1 : Int) > -1 := h
      omega
    · rintro ⟨s, hs, _⟩; cases hs
  | cons x xs ih =>
    simp only [jsIndexOf]
    by_cases h : some x = v
    · rw [if_pos h]
      constructor
      · intro _; exact ⟨x, List.mem_cons_self x xs, h.symm⟩
      · intro _; decide
    · rw [if_neg h]
      rcases jsIndexOf_eq_neg_one_or_nonneg xs v with h1 | h1
      · rw [if_pos h1]
        constructor
        · intro hc; exact absurd hc (by decide)
        · rintro ⟨s, hs, rfl⟩
          rcases List.mem_cons.mp hs with h2 | h2
          · exact absurd (congrArg some h2.symm) h
          · have h3 := ih.mpr ⟨s, h2, rfl⟩
            omega
      · have hne : ¬ jsIndexOf xs v = -1 := by omega
        rw [if_neg hne]
        constructor
        · intro _
          rcases ih.mp (by omega) with ⟨s, hs, hv⟩
          exact ⟨s, List.mem_cons_of_mem x hs, hv⟩
        · intro _; omega

theorem hexDigit_ne_slash : ∀ n < 16, hexDigit n ≠ Char.ofNat 47 := by decide

theorem char_toNat_lt (c : Char) : c.toNat < 1114112 := by
  rcases c.valid with h | h
  · exact Nat.lt_trans h (by decide)
  · exact h.2

theorem utf8Bytes_lt (c : Char) : ∀ b ∈ utf8Bytes c, b < 256 := by
  intro b hb
  have hc := char_toNat_lt c
  simp only [utf8Bytes] at hb
  split at hb <;>
    [skip; split at hb] <;>
    [skip; skip; split at hb] <;>
    simp only [List.mem_cons, List.not_mem_nil, or_false] at hb <;>
    omega

theorem percentEncodeByte_ne_slash (b : Nat) (hb : b < 256) :
    ∀ c ∈ percentEncodeByte b, c ≠ Char.ofNat 47 := by
  intro c hc
  simp only [percentEncodeByte, List.mem_cons, List.not_mem_nil, or_false] at hc
  rcases hc with rfl | rfl | rfl
  · decide
  · exact hexDigit_ne_slash (b / 16) (by omega)
  · exact hexDigit_ne_slash (b % 16) (by omega)

theorem encodeURIComponent_ne_slash (s : String) :
    ∀ c ∈ (encodeURIComponent s).data, c ≠ Char.ofNat 47 := by
  intro c hc
  simp only [encodeURIComponent, List.mem_flatMap] at hc
  rcases hc with ⟨a, _, ha⟩
  by_cases h : isUriUnescaped a
  · rw [if_pos h] at ha
    simp only [List.mem_singleton] at ha
    subst ha
    intro heq
    rw [heq] at h
    exact absurd h (by decide)
  · rw [if_neg h] at ha
    simp only [List.mem_flatMap] at ha
    rcases ha with ⟨b, hb, hcb⟩
    exact percentEncodeByte_ne_slash b (utf8Bytes_lt a b hb) c hcb

theorem encodeURIComponent_contains_slash_eq_false (s : String) :
    (encodeURIComponent s).data.contains (Char.ofNat 47) = false := by
  simp only [List.contains, List.elem_eq_mem, decide_eq_false_iff_not]
  intro hmem
  exact encodeURIComponent_ne_slash s _ hmem rfl

theorem except_map_error_iff {α β ε : Type} (x : Except ε α) (f : α → β)
    (e : ε) : x.map f = .error e ↔ x = .error e := by
  cases x <;> simp [Except.map]

/-- C1: for every `ids` (single id or sequence) and every `array` of data
sources, `filterArrayByIds ids array` is exactly the subsequence of `array`
whose elements have an `id` that is a member of the given id set, in the
original order of `array`, membership decided by exact string equality; an
empty id sequence yields the empty sequence. -/
theorem c1_filterArrayByIds_spec (ids : JsArg String)
    (array : List JdbcDatasource) :
    List.Sublist (filterArrayByIds ids array) array ∧
    filterArrayByIds ids array =
      array.filter (fun d => decide (∃ s ∈ ids.toArray, d.id = some s)) ∧
    filterArrayByIds (JsArg.array []) array = [] := by
  refine ⟨List.filter_sublist array, ?_, ?_⟩
  · apply List.filter_congr
    intro d _
    exact decide_eq_decide.mpr (jsIndexOf_pos_iff ids.toArray d.id)
  · simp [filterArrayByIds, JsArg.toArray, jsIndexOf]

/-- C2: `getIds` returns the sequence of `id` fields of the input, in input
order, duplicates preserved, absent ids passed through unchanged; a single
entity with id "a" yields ["a"]. -/
theorem c2_getIds_spec (d : JdbcDatasource) (l : List JdbcDatasource) :
    getIds (JsArg.single d) = [d.id] ∧
    getIds (JsArg.array l) = l.map (fun ds => ds.id) ∧
    getIds (JsArg.single { newJdbcDatasource with id := some "a" }) =
      [some "a"] :=
  ⟨rfl, rfl, rfl⟩

/-- C3: `newJdbcDatasource` has discriminator "JdbcDatasource", empty
`sourceForFeeds`, every listed string field equal to the empty string, and no
`id` set. -/
theorem c3_newJdbcDatasource_spec :
    newJdbcDatasource.«@type» = "JdbcDatasource" ∧
    newJdbcDatasource.sourceForFeeds = [] ∧
    newJdbcDatasource.name = "" ∧
    newJdbcDatasource.description = "" ∧
    newJdbcDatasource.type = "" ∧
    newJdbcDatasource.databaseConnectionUrl = "" ∧
    newJdbcDatasource.databaseDriverClassName = "" ∧
    newJdbcDatasource.databaseDriverLocation = "" ∧
    newJdbcDatasource.databaseUser = "" ∧
    newJdbcDatasource.password = "" ∧
    newJdbcDatasource.id = none :=
  ⟨rfl, rfl, rfl, rfl, rfl, rfl, rfl, rfl, rfl, rfl, rfl⟩

/-- C4: `findAll` issues a single GET request to the base endpoint with query
parameter type="UserDatasource" and, on success, resolves with the `data`
field of the transport response, not the raw envelope. -/
theorem c4_findAll_spec {δ ε : Type} (base : String)
    (t : HttpRequest → Except ε (HttpResponse δ)) (r : HttpResponse δ)
    (h : t (findAll (δ := δ) base).request = .ok r) :
    (findAll (δ := δ) base).request =
      { method := "GET", url := base, params := [("type", "UserDatasource")],
        body := none } ∧
    (findAll (δ := δ) base).run t = .ok r.data := by
  refine ⟨rfl, ?_⟩
  unfold HttpCall.run
  rw [h]
  rfl

/-- Witness for C4: `findAll` evaluated against a concrete transport. -/
theorem c4_findAll_witness :
    (findAll (δ := List JdbcDatasource) "base").request =
      { method := "GET", url := "base", params := [("type", "UserDatasource")],
        body := none } ∧
    (findAll (δ := List JdbcDatasource) "base").run findAllTransport =
      .ok [newJdbcDatasource] :=
  c4_findAll_spec "base" findAllTransport
    { status := 200, data := [newJdbcDatasource] } rfl

/-- C5: `save d` issues a single POST request to the base endpoint whose body
is the entity `d` itself, unmodified, and on success resolves with the
unwrapped `data` field of the transport response. -/
theorem c5_save_spec {δ ε : Type} (base : String) (d : JdbcDatasource)
    (t : HttpRequest → Except ε (HttpResponse δ)) (r : HttpResponse δ)
    (h : t (save (δ := δ) base d).request = .ok r) :
    (save (δ := δ) base d).request =
      { method := "POST", url := base, params := [], body := some d } ∧
    (save (δ := δ) base d).run t = .ok r.data := by
  refine ⟨rfl, ?_⟩
  unfold HttpCall.run
  rw [h]
  rfl

/-- Witness for C5: `save` evaluated against a concrete transport. -/
theorem c5_save_witness :
    (save (δ := JdbcDatasource) "base" newJdbcDatasource).request =
      { method := "POST", url := "base", params := [],
        body := some newJdbcDatasource } ∧
    (save (δ := JdbcDatasource) "base" newJdbcDatasource).run saveTransport =
      .ok { newJdbcDatasource with id := some "1" } :=
  c5_save_spec "base" newJdbcDatasource saveTransport
    { status := 200, data := { newJdbcDatasource with id := some "1" } } rfl

/-- C6: `deleteById id` issues a single DELETE request whose path is the base
endpoint, then "/", then the URI-component-encoded `id`; the encoded id
contains no "/" (code 47), so any id stays a single path segment. -/
theorem c6_deleteById_spec {δ : Type} (base id : String) :
    (deleteById (δ := δ) base id).request =
      { method := "DELETE", url := base ++ "/" ++ encodeURIComponent id,
        params := [], body := none } ∧
    (encodeURIComponent id).data.contains (Char.ofNat 47) = false :=
  ⟨rfl, encodeURIComponent_contains_slash_eq_false id⟩

/-- C7: `findById id` issues a single GET request whose path is the base
endpoint, then "/", then `id` concatenated without any escaping, and on
success resolves with the unwrapped `data` field of the transport response. -/
theorem c7_findById_spec {δ ε : Type} (base id : String)
    (t : HttpRequest → Except ε (HttpResponse δ)) (r : HttpResponse δ)
    (h : t (findById (δ := δ) base id).request = .ok r) :
    (findById (δ := δ) base id).request =
      { method := "GET", url := base ++ "/" ++ id, params := [],
        body := none } ∧
    (findById (δ := δ) base id).run t = .ok r.data := by
  refine ⟨rfl, ?_⟩
  unfold HttpCall.run
  rw [h]
  rfl

/-- Witness for C7: `findById` evaluated against a concrete transport. -/
theorem c7_findById_witness :
    (findById (δ := JdbcDatasource) "base" "abc").request =
      { method := "GET", url := "base" ++ "/" ++ "abc", params := [],
        body := none } ∧
    (findById (δ := JdbcDatasource) "base" "abc").run findByIdTransport =
      .ok newJdbcDatasource :=
  c7_findById_spec "base" "abc" findByIdTransport
    { status := 200, data := newJdbcDatasource } rfl

/-- C8: each asynchronous operation rejects with exactly the transport's
failure value, untransformed, and only on transport failure: its result is
the error `e` exactly when the transport rejected its one request with `e`.
No locally produced error exists — the operations are total functions of the
transport's answer. -/
theorem c8_error_propagation {δ ε : Type} (base id : String)
    (d : JdbcDatasource) (t : HttpRequest → Except ε (HttpResponse δ))
    (e : ε) :
    ((deleteById (δ := δ) base id).run t = .error e ↔
      t (deleteById (δ := δ) base id).request = .error e) ∧
    ((findAll (δ := δ) base).run t = .error e ↔
      t (findAll (δ := δ) base).request = .error e) ∧
    ((findById (δ := δ) base id).run t = .error e ↔
      t (findById (δ := δ) base id).request = .error e) ∧
    ((save (δ := δ) base d).run t = .error e ↔
      t (save (δ := δ) base d).request = .error e) :=
  ⟨except_map_error_iff _ _ e, except_map_error_iff _ _ e,
    except_map_error_iff _ _ e, except_map_error_iff _ _ e⟩

/-- C9 counterexample: `deleteById` returns the `$http` result with no
`.then` attached, so its resolved value is the full transport envelope and
carries whatever body the server returned — here the resolved value carries
the payload "server payload", and two transports differing only in response
body produce different resolved values.  This refutes the claim that the
caller receives no payload from the delete operation. -/
theorem c9_deleteById_counterexample :
    (deleteById (δ := String) "base" "abc").run deleteTransportA =
      .ok { status := 200, data := "server payload" } ∧
    (deleteById (δ := String) "base" "abc").run deleteTransportA ≠
      (deleteById (δ := String) "base" "abc").run deleteTransportB := by
  constructor
  · rfl
  · intro hEq
    simp [HttpCall.run, deleteById, deleteTransportA, deleteTransportB,
      Except.map, HttpResponse.mk.injEq] at hEq

/-- C9 amended: a successful `deleteById id` resolves with the raw transport
response envelope unchanged — the client attaches no unwrapping, so the
caller receives the full response (including any body the server sent)
rather than a payload-free completion; the client itself extracts no entity
from it. -/
theorem c9_deleteById_amended {δ ε : Type} (base id : String)
    (t : HttpRequest → Except ε (HttpResponse δ)) (r : HttpResponse δ)
    (h : t (deleteById (δ := δ) base id).request = .ok r) :
    (deleteById (δ := δ) base id).run t = .ok r := by
  unfold HttpCall.run
  rw [h]
  rfl

/-- Witness for C9 (amended): `deleteById` evaluated against a concrete
transport. -/
theorem c9_deleteById_witness :
    (deleteById (δ := String) "base2" "xyz").run deleteTransportA =
      .ok { status := 200, data := "server payload" } :=
  c9_deleteById_amended "base2" "xyz" deleteTransportA
    { status := 200, data := "server payload" } rfl

/-- C10: the pure helpers select, they do not modify: `filterArrayByIds`
returns a subsequence of the input array built of the input's own elements
(unchanged and in order), and `getIds` only reads the `id` field of each
input element; both are total pure functions of their arguments. -/
theorem c10_helpers_pure (ids : JsArg String) (array : List JdbcDatasource)
    (ds : JsArg JdbcDatasource) :
    List.Sublist (filterArrayByIds ids array) array ∧
    getIds ds = ds.toArray.map (fun d => d.id) :=
  ⟨List.filter_sublist array, rfl⟩

end DatasourcesService
